import Mathlib

/-!
# Verification of the time-series analytics engine

Shallow embedding of the analytics core of the repository
(`anylisis_data.py`, `show_data_large_data.py`): dataset loading/merging,
time filtering and resampling, step detection, first-order model fitting
helpers, PID tuning heuristics, fuzzy-rule mining and Granger-style
causality ranking.  Python floats are modelled as exact rationals `ℚ`,
missing values (`NaN`) as `Option ℚ`, and timestamps as integers (seconds).
-/

namespace TSV

/-- Arithmetic mean of a list, `np.mean` (0 on the empty list, where numpy
would return NaN; all uses below are on nonempty lists). -/
def mean (xs : List ℚ) : ℚ := xs.sum / xs.length

/-- Python slice `xs[a:b]` (for `a ≤ b`; natural subtraction clamps). -/
def pySlice (xs : List ℚ) (a b : Nat) : List ℚ := (xs.drop a).take (b - a)

/-- `np.median` / `pd.median`: sort, take the middle element, or the average
of the two middle elements for an even length (0 on the empty list). -/
def median (xs : List ℚ) : ℚ :=
  let s := xs.insertionSort (· ≤ ·)
  let n := s.length
  if n = 0 then 0
  else if n % 2 = 1 then s.getD (n / 2) 0
  else (s.getD (n / 2 - 1) 0 + s.getD (n / 2) 0) / 2

/-! ## First-Order Identifier: steady-state means (`estimate_pid_for_selected`)

`pre_mean = np.mean(vals[max(0, start_idx-10):start_idx+1])`
`post_mean = np.mean(vals[end_idx:min(len(vals)-1, end_idx+10)+1])` -/

/-- Pre-step steady value: mean of `vals[max(0, s-10) : s+1]`. -/
def preMean (vals : List ℚ) (s : Nat) : ℚ := mean (pySlice vals (s - 10) (s + 1))

/-- Post-step steady value: mean of `vals[e : min(len-1, e+10)+1]`. -/
def postMean (vals : List ℚ) (e : Nat) : ℚ :=
  mean (pySlice vals e (min (vals.length - 1) (e + 10) + 1))

/-- Modelled from the spec's words, for comparison with `preMean`: mean of up
to 10 samples ending at the window start, reading "ending at" as including
index `s` (indices `s-9 .. s`). -/
def preMeanSpecIncl (vals : List ℚ) (s : Nat) : ℚ := mean (pySlice vals (s + 1 - 10) (s + 1))

/-- Modelled from the spec's words, for comparison with `preMean`: mean of up
to 10 samples ending at the window start, reading "ending at" as stopping
just before index `s` (indices `s-10 .. s-1`). -/
def preMeanSpecExcl (vals : List ℚ) (s : Nat) : ℚ := mean (pySlice vals (s - 10) s)

/-- Concrete series exhibiting the 11-sample window: one distinguished value
followed by ten zeros, window start at index 10. -/
def exC4 : List ℚ := [22, 0, 0, 0, 0, 0, 0, 0, 0, 0, 0, 7, 7]

/-! ## PID tuning heuristic (`estimate_pid_for_selected`, after a fit)

```
L_est = max(0.0, 0.1 * tau_est)
if abs(K_est) < 1e-9: K_est = 1e-9
Kp_zn = (1.2 * tau_est) / (abs(K_est) * (L_est + 1e-9))
Ti_zn = 2 * L_est
Td_zn = 0.5 * L_est
``` -/

/-- The `1e-9` guard used throughout the PID code. -/
def eps9 : ℚ := 1 / 1000000000

/-- Dead-time estimate `L = max(0, 0.1·tau)`. -/
def lEst (tau : ℚ) : ℚ := max 0 (1 / 10 * tau)

/-- Gain with the near-zero guard applied: `if abs(K) < 1e-9: K = 1e-9`. -/
def kGuard (K : ℚ) : ℚ := if |K| < eps9 then eps9 else K

/-- The tuning recommendation `(L, Kp, Ti, Td)` exactly as computed by
`estimate_pid_for_selected` from fitted `K` and `tau`. -/
def tuning (K tau : ℚ) : ℚ × ℚ × ℚ × ℚ :=
  let L := lEst tau
  let K' := kGuard K
  let Kp := (12 / 10 * tau) / (|K'| * (L + eps9))
  let Ti := 2 * L
  let Td := 1 / 2 * L
  (L, Kp, Ti, Td)

/-! ## Goodness of fit (`estimate_pid_for_selected`)

```
ss_res = np.sum((y_segment - y_fit) ** 2)
ss_tot = np.sum((y_segment - np.mean(y_segment)) ** 2)
r2 = 1 - ss_res / ss_tot if ss_tot != 0 else np.nan
``` -/

/-- Residual sum of squares between the data and the fitted curve. -/
def ssRes (ys fits : List ℚ) : ℚ := ((ys.zipWith (· - ·) fits).map (· ^ 2)).sum

/-- Total sum of squares of the data about its mean. -/
def ssTot (ys : List ℚ) : ℚ := (ys.map (fun y => (y - mean ys) ^ 2)).sum

/-- R² as reported by the code; `none` models NaN (the `ss_tot == 0` branch). -/
def r2 (ys fits : List ℚ) : Option ℚ :=
  if ssTot ys = 0 then none else some (1 - ssRes ys fits / ssTot ys)

/-! ## First-order model (`first_order` inside `estimate_pid_for_selected`)

`return K * (1 - np.exp(-t / (tau + 1e-9))) + y0`.  The exponential is a
transcendental external (numpy); the model takes it as a parameter, since the
claim under study concerns only the divisor `tau + 1e-9`. -/

/-- The divisor appearing inside the exponential: `tau + 1e-9`. -/
def firstOrderDenom (tau : ℚ) : ℚ := tau + eps9

/-- `first_order(t, K, tau, y0)` with the exponential supplied externally. -/
def first_order (expF : ℚ → ℚ) (t K tau y0 : ℚ) : ℚ :=
  K * (1 - expF (-t / firstOrderDenom tau)) + y0

/-! ## Fuzzy rule miner (`generate_fuzzy_rules`)

The cleaned data `df_clean` (after `interpolate().dropna()`) is a list of
fully-valid rows, one rational per selected column, columns in selection
order with the designated output last. -/

/-- pandas `quantile(q)` with the default linear interpolation: on the sorted
values `s` of length `n`, with `h = q·(n−1)`, `i = ⌊h⌋`, the result is
`s[i] + (h − i)·(s[i+1] − s[i])` (0 on an empty column, where pandas gives
NaN; the miner only runs on nonempty data). -/
def quantile (q : ℚ) (xs : List ℚ) : ℚ :=
  let s := xs.insertionSort (· ≤ ·)
  let n := s.length
  if n = 0 then 0 else
  let h : ℚ := q * (n - 1)
  let i : Nat := ⌊h⌋.toNat
  let g : ℚ := h - i
  let a := s.getD i 0
  let b := s.getD (min (i + 1) (n - 1)) 0
  a + g * (b - a)

/-- `fuzzify_val`: `≤` 33rd percentile → 低 (low), `≥` 66th → 高 (high),
otherwise 中 (medium). -/
def fuzzifyVal (lo hi v : ℚ) : String :=
  if v ≤ lo then "低" else if hi ≤ v then "高" else "中"

/-- Column `j` of the cleaned row list. -/
def colVals (rows : List (List ℚ)) (j : Nat) : List ℚ := rows.map (fun r => r.getD j 0)

/-- A mined rule key: (antecedent label tuple, consequent label). -/
abbrev RuleKey := List String × String

/-- `rules_count[key] = rules_count.get(key, 0) + 1` on a Python dict
(insertion-ordered association list with unique keys). -/
def bumpRule (acc : List (RuleKey × Nat)) (key : RuleKey) : List (RuleKey × Nat) :=
  match acc with
  | [] => [(key, 1)]
  | kv :: rest => if kv.1 = key then (kv.1, kv.2 + 1) :: rest else kv :: bumpRule rest key

/-- The (antecedent, consequent) key of one cleaned row: inputs are columns
`0..nIn−1`, the output is column `nIn`. -/
def rowKey (lo hi : Nat → ℚ) (nIn : Nat) (row : List ℚ) : RuleKey :=
  ((List.range nIn).map (fun j => fuzzifyVal (lo j) (hi j) (row.getD j 0)),
   fuzzifyVal (lo nIn) (hi nIn) (row.getD nIn 0))

/-- The support counters built by the mining loop of `generate_fuzzy_rules`:
one `bumpRule` per cleaned row, with per-column 33%/66% quantile
thresholds computed from the same cleaned data. -/
def rulesCountOf (selected : List String) (rows : List (List ℚ)) : List (RuleKey × Nat) :=
  let nIn := selected.length - 1
  let lo := fun j => quantile (33 / 100) (colVals rows j)
  let hi := fun j => quantile (66 / 100) (colVals rows j)
  rows.foldl (fun acc row => bumpRule acc (rowKey lo hi nIn row)) []

/-- Python `sorted(rules_count.items(), key=lambda x: x[1], reverse=True)`:
stable sort by descending support. -/
def sortRulesDesc (rs : List (RuleKey × Nat)) : List (RuleKey × Nat) :=
  rs.insertionSort (fun a b => b.2 ≤ a.2)

/-- `generate_fuzzy_rules`: at least two selected series, nonempty cleaned
data, then the top-K rules by support; errors model the status-bar reports. -/
def generateFuzzyRules (selected : List String) (rows : List (List ℚ)) (topK : Nat) :
    Except String (List (RuleKey × Nat)) :=
  if selected.length < 2 then Except.error "请至少选择 2 个变量（前者为输入，最后一个为输出）"
  else if rows.isEmpty then Except.error "数据不足，无法生成规则"
  else Except.ok ((sortRulesDesc (rulesCountOf selected rows)).take topK)

/-- Total support over a rule counter list. -/
def sumCounts (rs : List (RuleKey × Nat)) : Nat := (rs.map Prod.snd).sum

end TSV

namespace TSV

/-! ### Theorems for C4, C5, C6, C8 -/

/-- **C4** (counterexample): at window start index 10 on `exC4`, the code's
pre-step steady value averages 11 samples and differs from the mean of up to
10 samples ending at the window start under either reading of "ending at". -/
theorem C4_counterexample :
    preMean exC4 10 ≠ preMeanSpecIncl exC4 10 ∧
    preMean exC4 10 ≠ preMeanSpecExcl exC4 10 := by
  constructor <;> norm_num [preMean, preMeanSpecIncl, preMeanSpecExcl, mean, pySlice, exC4]

/-- **C4** (amended): the pre-step steady value is the mean of up to **11**
samples `vals[s-10..s]` (clamped at the series start) and the post-step steady
value is the mean of up to **11** samples `vals[e..e+10]` (clamped at the
series end): the averaged slices have lengths `min (s+1) 11` and
`min (len-e) 11` respectively. -/
theorem C4_steady_means (vals : List ℚ) (s e : Nat)
    (hs : s < vals.length) (he : e < vals.length) :
    preMean vals s = mean (pySlice vals (s - 10) (s + 1)) ∧
    (pySlice vals (s - 10) (s + 1)).length = min (s + 1) 11 ∧
    postMean vals e = mean (pySlice vals e (min (vals.length - 1) (e + 10) + 1)) ∧
    (pySlice vals e (min (vals.length - 1) (e + 10) + 1)).length = min (vals.length - e) 11 := by
  refine ⟨rfl, ?_, rfl, ?_⟩ <;>
    simp only [pySlice, List.length_take, List.length_drop] <;> omega

/-- **C4** (witness for the amended theorem). -/
theorem C4_steady_means_witness :
    (pySlice exC4 (10 - 10) (10 + 1)).length = min (10 + 1) 11 := by
  exact (C4_steady_means exC4 10 11 (by decide) (by decide)).2.1

/-- **C5**: the tuning recommendation satisfies `L = max(0, 0.1·tau)`,
`Kp = 1.2·tau / (|K'|·(L+ε))` with `K'` the near-zero-guarded gain,
`Ti = 2·L`, `Td = 0.5·L`; and at `K = 5`, `tau = 10` it yields `L = 1`,
`Ti = 2`, `Td = 1/2`, and `Kp` within `10⁻⁶` of `2.4`. -/
theorem C5_tuning :
    (∀ K tau : ℚ,
      tuning K tau =
        (lEst tau,
         (12 / 10 * tau) / (|kGuard K| * (lEst tau + eps9)),
         2 * lEst tau,
         1 / 2 * lEst tau)) ∧
    (tuning 5 10).1 = 1 ∧
    (tuning 5 10).2.2.1 = 2 ∧
    (tuning 5 10).2.2.2 = 1 / 2 ∧
    |(tuning 5 10).2.1 - 12 / 5| < 1 / 1000000 := by
  refine ⟨fun K tau => rfl, ?_, ?_, ?_, ?_⟩
  · norm_num [tuning, lEst, kGuard, eps9]
  · norm_num [tuning, lEst, kGuard, eps9]
  · norm_num [tuning, lEst, kGuard, eps9]
  · rw [abs_lt]
    constructor <;> norm_num [tuning, lEst, kGuard, eps9]

/-- **C6**: R² is `1 − SS_res/SS_tot` from the fitted curve; when `SS_tot = 0`
it is reported as undefined (`none`, modelling NaN) instead of being computed
by division; otherwise the exact (possibly negative) value is reported
unchanged, never clamped. -/
theorem C6_r2 (ys fits : List ℚ) :
    (ssTot ys = 0 → r2 ys fits = none) ∧
    (ssTot ys ≠ 0 → r2 ys fits = some (1 - ssRes ys fits / ssTot ys)) := by
  constructor <;> intro h <;> simp [r2, h]

/-- **C6** (witness): a constant segment reports undefined R², and a poor fit
on `ys = [0, 2]`, `fits = [10, 10]` reports the negative value `−81`
unclamped. -/
theorem C6_r2_witness :
    (ssTot [(0 : ℚ), 0] = 0 ∧ r2 [(0 : ℚ), 0] [1, 1] = none) ∧
    (ssTot [(0 : ℚ), 2] ≠ 0 ∧
      r2 [(0 : ℚ), 2] [10, 10] = some (1 - ssRes [(0 : ℚ), 2] [10, 10] / ssTot [(0 : ℚ), 2]) ∧
      r2 [(0 : ℚ), 2] [10, 10] = some (-81)) := by
  refine ⟨⟨by norm_num [ssTot, mean], (C6_r2 [(0 : ℚ), 0] [1, 1]).1 (by norm_num [ssTot, mean])⟩,
         ⟨by norm_num [ssTot, mean], (C6_r2 [(0 : ℚ), 2] [10, 10]).2 (by norm_num [ssTot, mean]),
          by norm_num [r2, ssTot, ssRes, mean]⟩⟩

/-- **C8** (counterexample): the divisor `tau + 1e-9` inside the model's
exponential is not clamped away from zero: at `tau = −1e-9` it is exactly 0,
so the division `−t / (tau + 1e-9)` is a division by zero. -/
theorem C8_counterexample : firstOrderDenom (-(1 / 1000000000)) = 0 := by
  norm_num [firstOrderDenom, eps9]

/-- **C8** (amended): the code offsets `tau` by `ε = 1e-9` rather than
clamping it; the divisor is positive for every nonnegative `tau` (so no
division by zero occurs for such parameters), and it vanishes exactly at
`tau = −ε`. -/
theorem C8_denom (tau : ℚ) :
    (0 ≤ tau → 0 < firstOrderDenom tau) ∧
    (firstOrderDenom tau = 0 ↔ tau = -eps9) := by
  constructor
  · intro h
    have : (0 : ℚ) < eps9 := by norm_num [eps9]
    unfold firstOrderDenom
    linarith
  · unfold firstOrderDenom
    constructor <;> intro h <;> linarith

/-- **C8** (witness for the amended theorem, at `tau = 0`). -/
theorem C8_denom_witness : 0 < firstOrderDenom 0 :=
  (C8_denom 0).1 (le_refl 0)

end TSV

namespace TSV

/-! ### Theorems for C3 and C10 -/

/-- **C3** (counterexample): a cleaned dataset with exactly one valid row —
fewer than 2 — is *not* reported as insufficient: the miner proceeds and
returns one rule of support 1. -/
theorem C3_counterexample :
    ([[(1 : ℚ), 2]] : List (List ℚ)).length = 1 ∧
    generateFuzzyRules ["a", "b"] [[(1 : ℚ), 2]] 20 =
      Except.ok [((["低"], "低"), 1)] := by
  refine ⟨rfl, ?_⟩
  norm_num [generateFuzzyRules, rulesCountOf, sortRulesDesc, rowKey, bumpRule,
    quantile, colVals, fuzzifyVal, List.insertionSort, List.orderedInsert]

/-- **C3** (amended): the miner reports "insufficient data" and returns no
rules exactly when the cleaned data is *empty* (0 rows); a single valid row
already produces rules. -/
theorem C3_empty_reports (selected : List String) (rows : List (List ℚ)) (topK : Nat)
    (hsel : 2 ≤ selected.length) (hrows : rows = []) :
    generateFuzzyRules selected rows topK = Except.error "数据不足，无法生成规则" := by
  subst hrows
  unfold generateFuzzyRules
  rw [if_neg (by omega)]
  rfl

/-- **C3** (witness for the amended theorem). -/
theorem C3_empty_reports_witness :
    generateFuzzyRules ["a", "b"] [] 20 = Except.error "数据不足，无法生成规则" :=
  C3_empty_reports ["a", "b"] [] 20 (by norm_num) rfl

/-- One `bumpRule` adds exactly one to the total support. -/
theorem sumCounts_bumpRule (acc : List (RuleKey × Nat)) (key : RuleKey) :
    sumCounts (bumpRule acc key) = sumCounts acc + 1 := by
  induction acc with
  | nil => rfl
  | cons kv rest ih =>
    by_cases h : kv.1 = key <;> simp [bumpRule, h, sumCounts] at ih ⊢ <;> omega

/-- The mining fold adds one unit of support per row. -/
theorem sumCounts_foldl (f : List ℚ → RuleKey) (rows : List (List ℚ))
    (acc : List (RuleKey × Nat)) :
    sumCounts (rows.foldl (fun a r => bumpRule a (f r)) acc) =
      sumCounts acc + rows.length := by
  induction rows generalizing acc with
  | nil => simp
  | cons r rs ih =>
    simp only [List.foldl, List.length_cons, ih, sumCounts_bumpRule]
    omega

/-- **C10**: every cleaned row contributes exactly one increment to exactly
one (antecedent, consequent) support counter, so the total support over all
mined rules equals the number of cleaned rows. -/
theorem C10_support_sum (selected : List String) (rows : List (List ℚ))
    (hne : rows ≠ []) :
    sumCounts (rulesCountOf selected rows) = rows.length := by
  simp only [rulesCountOf]
  simpa [sumCounts] using sumCounts_foldl
    (rowKey (fun j => quantile (33 / 100) (colVals rows j))
            (fun j => quantile (66 / 100) (colVals rows j))
            (selected.length - 1)) rows []

/-- **C10** (witness). -/
theorem C10_support_sum_witness :
    sumCounts (rulesCountOf ["a", "b"] [[(1 : ℚ), 2], [3, 4]]) = 2 := by
  have h := C10_support_sum ["a", "b"] [[(1 : ℚ), 2], [3, 4]] (by simp)
  simpa using h

end TSV

namespace TSV

/-! ## Dataset loading and merging (`load_files`), at column-name level

Both `load_files` implementations treat columns identically: the first column
becomes the time index; the rename map skips the time column and every
blank/whitespace or `Unnamed:` column and prefixes the rest with the source
file name; merging is an outer join with `suffixes=('', '_dup')` followed by
dropping each `_dup` column whose base name is still present. -/

/-- `str(col).startswith('Unnamed:')`, on the character list (Lean's
`String.startsWith` is equivalent but does not reduce in the kernel). -/
def hasUnnamedTag (c : String) : Bool := "Unnamed:".data.isPrefixOf c.data

/-- `str(col).strip() == ''`: every character is whitespace. -/
def isBlankName (c : String) : Bool := c.data.all (fun ch => ch.isWhitespace)

/-- `str(col).startswith('Unnamed:') or str(col).strip() == ''`. -/
def isBadName (c : String) : Bool := hasUnnamedTag c || isBlankName c

/-- `col.endswith('_dup')`. -/
def endsWithDup (c : String) : Bool := "_dup".data.isSuffixOf c.data

/-- `col[:-4]`. -/
def dropLast4 (c : String) : String := String.mk (c.data.take (c.data.length - 4))

/-- `str(col).lower().startswith(pre)`. -/
def lowerStarts (c : String) (pre : String) : Bool :=
  pre.data.isPrefixOf (c.data.map Char.toLower)

/-- The rename step: the time column and bad-named columns are left
unchanged (they are *skipped* when building `new_columns`, not dropped);
every other column gets the file prefix. -/
def renameCols (pre timeCol : String) (cols : List String) : List String :=
  cols.map (fun c => if c = timeCol then c else if isBadName c then c else pre ++ c)

/-- `pd.merge(..., how='outer', suffixes=('', '_dup'))` at column-name level:
right-hand columns colliding with a left-hand name get the `_dup` suffix. -/
def mergeSuffix (left right : List String) : List String :=
  left ++ right.map (fun c => if left.contains c then c ++ "_dup" else c)

/-- The post-merge cleanup loop: iterate over a snapshot of the columns and
drop each one ending in `_dup` whose base name is still present. -/
def dropDups (cols : List String) : List String :=
  cols.foldl (fun acc c =>
    if endsWithDup c && acc.contains (dropLast4 c) then acc.erase c else acc) cols

/-- One iteration of the `load_files` loop: split off the time column,
rename, and outer-merge into the accumulated dataset (first table taken
as-is). -/
def loadTable (merged : List String) (pre : String) (cols : List String) : List String :=
  match cols with
  | [] => merged
  | timeCol :: rest =>
      let renamed := renameCols pre timeCol rest
      if merged.isEmpty then renamed else dropDups (mergeSuffix merged renamed)

/-- `update_variable_list`: the variables offered for selection, skipping
time/date-named and bad-named columns. -/
def variableList (cols : List String) : List String :=
  cols.filter (fun c =>
    !(lowerStarts c "time" || lowerStarts c "date" || lowerStarts c "时间" ||
      isBadName c))

/-! ### Theorems for C2 -/

/-- **C2** (counterexample): loading a table with columns
`["time", "Unnamed: 1", "value"]` leaves `Unnamed: 1` in the merged dataset:
bad-named columns are skipped by the rename map, not dropped. -/
theorem C2_counterexample :
    loadTable [] "data_" ["time", "Unnamed: 1", "value"] = ["Unnamed: 1", "data_value"] ∧
    isBadName "Unnamed: 1" = true ∧
    "Unnamed: 1" ∈ loadTable [] "data_" ["time", "Unnamed: 1", "value"] := by
  refine ⟨by decide, by decide, ?_⟩
  rw [show loadTable [] "data_" ["time", "Unnamed: 1", "value"]
      = ["Unnamed: 1", "data_value"] by decide]
  exact List.mem_cons_self _ _

/-- **C2** (amended): a blank/whitespace or `Unnamed:` column is excluded
from the prefix renaming (it keeps its original name through the rename step)
and is hidden from the variable list offered to the user, but it is *not*
dropped before the merge and can therefore appear in the merged dataset. -/
theorem C2_bad_columns (c : String) (hc : isBadName c = true) :
    (∀ pre timeCol cols, c ∈ cols → c ∈ renameCols pre timeCol cols) ∧
    (∀ cols, c ∉ variableList cols) := by
  constructor
  · intro pre timeCol cols hmem
    apply List.mem_map.mpr
    refine ⟨c, hmem, ?_⟩
    by_cases h : c = timeCol <;> simp [h, hc]
  · intro cols hmem
    have := (List.mem_filter.mp hmem).2
    simp [hc] at this

/-- **C2** (witness for the amended theorem, at `c = "Unnamed: 0"`). -/
theorem C2_bad_columns_witness :
    "Unnamed: 0" ∈ renameCols "f_" "time" ["Unnamed: 0", "x"] ∧
    "Unnamed: 0" ∉ variableList ["Unnamed: 0", "x"] :=
  ⟨(C2_bad_columns "Unnamed: 0" (by decide)).1 "f_" "time" ["Unnamed: 0", "x"]
      (List.mem_cons_self _ _),
   (C2_bad_columns "Unnamed: 0" (by decide)).2 ["Unnamed: 0", "x"]⟩

end TSV

namespace TSV

/-! ## Granger causality ranking (`compute_granger`)

The statistical test itself (`statsmodels.grangercausalitytests`) is an
external collaborator; it is supplied as an oracle returning, per ordered
pair and maximum lag, either the p-values for lags `1..maxlag` or a failure.
Each pair is tried independently (the Python `try/except` around a single
pair's test call). -/

/-- `maxlag = min(10, max(1, int(len(df_clean) / 5)))`. -/
def maxlagOf (n : Nat) : Nat := min 10 (max 1 (n / 5))

/-- The sort key relation of `sorted(pvals, key=lambda z: z[1])`. -/
def pvalLe (a b : Nat × ℚ) : Prop := a.2 ≤ b.2

instance : DecidableRel pvalLe := fun a b => inferInstanceAs (Decidable (a.2 ≤ b.2))

instance : IsTotal (Nat × ℚ) pvalLe := ⟨fun a b => le_total a.2 b.2⟩

instance : IsTrans (Nat × ℚ) pvalLe := ⟨fun _ _ _ => le_trans⟩

/-- `sorted(pvals, key=lambda z: z[1])[0]`: stable sort by p-value, first
element (the `(lag, pvalue)` with the smallest p-value). -/
def bestLag (pvals : List (Nat × ℚ)) : Nat × ℚ :=
  (pvals.insertionSort pvalLe).headD (0, 0)

/-- The `(lag, pvalue)` list for lags `1..maxlag` out of the oracle's
p-values. -/
def pairLags (ps : List ℚ) : List (Nat × ℚ) := List.zip (List.range' 1 ps.length) ps

/-- One ordered pair's report entry: the best lag on success, the caught
error message on failure. -/
def pairResult (test : String → String → Nat → Except String (List ℚ))
    (maxlag : Nat) (x y : String) : Except String (Nat × ℚ) :=
  match test x y maxlag with
  | Except.ok ps => Except.ok (bestLag (pairLags ps))
  | Except.error e => Except.error e

/-- `compute_granger`: one entry per ordered index pair `(i, j)`, `i ≠ j`,
over the selected names, with `maxlag` computed from the cleaned length `n`. -/
def computeGranger (selected : List String) (n : Nat)
    (test : String → String → Nat → Except String (List ℚ)) :
    List (String × String × Except String (Nat × ℚ)) :=
  (List.range selected.length).flatMap (fun i =>
    ((List.range selected.length).filter (fun j => decide (i ≠ j))).map (fun j =>
      (selected.getD i "", selected.getD j "",
       pairResult test (maxlagOf n) (selected.getD i "") (selected.getD j ""))))

/-! ### Theorems for C9 -/

/-- The head of the stable sort by p-value is an element with minimal
p-value. -/
theorem bestLag_mem_min (l : List (Nat × ℚ)) (hl : l ≠ []) :
    bestLag l ∈ l ∧ ∀ q ∈ l, (bestLag l).2 ≤ q.2 := by
  have hperm := List.perm_insertionSort pvalLe l
  have hsorted := List.sorted_insertionSort pvalLe l
  rcases hs : l.insertionSort pvalLe with _ | ⟨a, rest⟩
  · rw [hs] at hperm
    exact absurd hperm.symm.eq_nil hl
  · have hbest : bestLag l = a := by rw [bestLag, hs]; rfl
    rw [hs] at hperm hsorted
    constructor
    · rw [hbest]
      exact hperm.mem_iff.mp (List.mem_cons_self a rest)
    · intro q hq
      rcases List.mem_cons.mp (hperm.symm.mem_iff.mp hq) with h | h
      · rw [hbest, h]
      · rw [hbest]
        exact List.rel_of_sorted_cons hsorted q h

/-- **C9**: the per-pair maximum lag is `clamp(⌊n/5⌋, 1, 10)`; every ordered
pair `(i, j)` with `i ≠ j` gets an entry in the output whose value is
computed from that pair's own test result alone (so a failure for one pair
yields an error entry for that pair only and cannot prevent the others); on
success the reported `(lag, pvalue)` is an entry of the `(lag, pvalue)` list
for lags `1..maxlag` with the smallest p-value; on failure the entry carries
that pair's error. -/
theorem C9_granger (selected : List String) (n : Nat)
    (test : String → String → Nat → Except String (List ℚ)) :
    maxlagOf n = max 1 (min 10 (n / 5)) ∧
    (∀ i j, i < selected.length → j < selected.length → i ≠ j →
      (selected.getD i "", selected.getD j "",
        pairResult test (maxlagOf n) (selected.getD i "") (selected.getD j ""))
        ∈ computeGranger selected n test) ∧
    (∀ x y ps, test x y (maxlagOf n) = Except.ok ps → ps ≠ [] →
      pairResult test (maxlagOf n) x y = Except.ok (bestLag (pairLags ps)) ∧
      bestLag (pairLags ps) ∈ pairLags ps ∧
      ∀ q ∈ pairLags ps, (bestLag (pairLags ps)).2 ≤ q.2) ∧
    (∀ x y e, test x y (maxlagOf n) = Except.error e →
      pairResult test (maxlagOf n) x y = Except.error e) := by
  refine ⟨?_, ?_, ?_, ?_⟩
  · unfold maxlagOf; omega
  · intro i j hi hj hij
    apply List.mem_flatMap.mpr
    refine ⟨i, List.mem_range.mpr hi, ?_⟩
    apply List.mem_map.mpr
    exact ⟨j, List.mem_filter.mpr ⟨List.mem_range.mpr hj, by simpa using hij⟩, rfl⟩
  · intro x y ps hok hne
    have hlags : pairLags ps ≠ [] := by
      intro h
      apply hne
      have := congrArg List.length h
      simp [pairLags] at this
      exact this
    refine ⟨by simp [pairResult, hok], (bestLag_mem_min _ hlags).1, (bestLag_mem_min _ hlags).2⟩
  · intro x y e herr
    simp [pairResult, herr]

/-- Concrete oracle for the C9 witness: the pair starting from `"a"`
succeeds with p-values `[1/2, 1/4]`, every other pair fails. -/
def testC9 : String → String → Nat → Except String (List ℚ) :=
  fun x _ _ => if x = "a" then Except.ok [1 / 2, 1 / 4] else Except.error "err"

/-- **C9** (witness): with two selected series and 12 cleaned rows, the
successful pair `("a","b")` and the failing pair `("b","a")` both have
entries, and the failing pair's entry is its own error. -/
theorem C9_granger_witness :
    ("a", "b", pairResult testC9 (maxlagOf 12) "a" "b")
      ∈ computeGranger ["a", "b"] 12 testC9 ∧
    ("b", "a", pairResult testC9 (maxlagOf 12) "b" "a")
      ∈ computeGranger ["a", "b"] 12 testC9 ∧
    pairResult testC9 (maxlagOf 12) "b" "a" = Except.error "err" ∧
    bestLag (pairLags [1 / 2, 1 / 4]) ∈ pairLags [1 / 2, 1 / 4] := by
  refine ⟨(C9_granger ["a", "b"] 12 testC9).2.1 0 1 (by decide) (by decide) (by decide),
         (C9_granger ["a", "b"] 12 testC9).2.1 1 0 (by decide) (by decide) (by decide),
         (C9_granger ["a", "b"] 12 testC9).2.2.2 "b" "a" "err" (by rfl),
         ((C9_granger ["a", "b"] 12 testC9).2.2.1 "a" "b" [1 / 2, 1 / 4]
            (by rfl) (by simp)).2.1⟩

end TSV

namespace TSV

/-! ## Step detector (`_detect_steps`)

```
vals = series.values
if len(vals) < 10: return []
diff = np.diff(vals)
diff_s = pd.Series(diff).rolling(window=3, min_periods=1, center=True).median().values
mad = np.median(np.abs(diff_s - np.median(diff_s)))
if prominence is None: prominence = max(1e-6, 3 * mad)
peaks, props = find_peaks(np.abs(diff_s), prominence=prominence, distance=distance)
steps = [(max(0, p - 8), min(len(vals) - 1, p + 8)) for p in peaks]
```

`find_peaks` (scipy) is embedded below: plateau-aware local maxima, then the
distance filter, then the prominence filter. -/

/-- `np.diff`: consecutive differences `x[i+1] − x[i]`. -/
def npDiff : List ℚ → List ℚ
  | a :: b :: rest => (b - a) :: npDiff (b :: rest)
  | _ => []

/-- pandas `rolling(window=3, min_periods=1, center=True).median()`: at index
`i`, the median of the window `x[i−1..i+1]` clipped to the series. -/
def rollingMedian3 (xs : List ℚ) : List ℚ :=
  (List.range xs.length).map (fun i => median (pySlice xs (i - 1) (min (i + 2) xs.length)))

/-- `np.median(np.abs(xs - np.median(xs)))`, the MAD scale estimate. -/
def madOf (xs : List ℚ) : ℚ := median (xs.map (fun x => |x - median xs|))

/-- The inner plateau scan of scipy `_local_maxima_1d`:
`while i_ahead < i_max and x[i_ahead] == x[i]: i_ahead += 1` (fuel-bounded
while loop; the pointer strictly increases so fuel `x.length` suffices). -/
def plateauEnd (x : List ℚ) (v : ℚ) : Nat → Nat → Nat
  | 0, i => i
  | fuel + 1, i =>
      if i + 1 < x.length ∧ x.getD i 0 = v then plateauEnd x v fuel (i + 1) else i

/-- The outer scan of scipy `_local_maxima_1d`: for `1 ≤ i ≤ n−2`, a peak is
recorded at the plateau midpoint whenever the signal strictly rises into the
plateau at `i` and strictly falls after it (fuel-bounded while loop; the
pointer strictly increases so fuel `x.length` suffices). -/
def lmAux (x : List ℚ) : Nat → Nat → List Nat
  | 0, _ => []
  | fuel + 1, i =>
      if i + 1 < x.length then
        if x.getD (i - 1) 0 < x.getD i 0 then
          let j := plateauEnd x (x.getD i 0) x.length (i + 1)
          if x.getD j 0 < x.getD i 0 then (i + (j - 1)) / 2 :: lmAux x fuel (j + 1)
          else lmAux x fuel (i + 1)
        else lmAux x fuel (i + 1)
      else []

/-- scipy `_local_maxima_1d`: midpoints of strict local maxima/plateaus. -/
def localMaxima (x : List ℚ) : List Nat := lmAux x x.length 1

/-- Stable ascending argsort of the peak heights (`np.argsort` on the
priority array). -/
def argsortAsc (hs : List ℚ) : List Nat :=
  (List.range hs.length).insertionSort (fun a b => hs.getD a 0 ≤ hs.getD b 0)

/-- scipy `_select_by_peak_distance`: process peaks from the highest height
downwards; each still-kept peak unmarks every other peak strictly closer
than `distance` positions (the peak list is in ascending position order, so
scipy's two break-on-gap scans mark exactly those neighbours). -/
def selectByDistance (peaks : List Nat) (hs : List ℚ) (distance : Nat) : List Nat :=
  let n := peaks.length
  let order := (argsortAsc hs).reverse
  let keep := order.foldl (fun keep j =>
    if keep.getD j false then
      (List.range n).foldl (fun kp k =>
        if k ≠ j ∧ Nat.dist (peaks.getD j 0) (peaks.getD k 0) < distance
        then kp.set k false else kp) keep
    else keep) (List.replicate n true)
  ((List.range n).filter (fun k => keep.getD k false)).map (fun k => peaks.getD k 0)

/-- Left scan of `_peak_prominences`: the minimum of the values from the peak
leftwards, stopping before the first value higher than the peak. -/
def promLeftMin (x : List ℚ) (p : Nat) : ℚ :=
  (((x.take (p + 1)).reverse).takeWhile (fun v => decide (v ≤ x.getD p 0))).foldl
    min (x.getD p 0)

/-- Right scan of `_peak_prominences`, symmetric to `promLeftMin`. -/
def promRightMin (x : List ℚ) (p : Nat) : ℚ :=
  ((x.drop p).takeWhile (fun v => decide (v ≤ x.getD p 0))).foldl min (x.getD p 0)

/-- `_peak_prominences`: peak height above the higher of the two base
minima. -/
def prominenceOf (x : List ℚ) (p : Nat) : ℚ :=
  x.getD p 0 - max (promLeftMin x p) (promRightMin x p)

/-- scipy `find_peaks(x, prominence=promMin, distance=distance)`: local
maxima, then the distance filter, then the prominence filter. -/
def findPeaks (x : List ℚ) (promMin : ℚ) (distance : Nat) : List Nat :=
  let peaks := localMaxima x
  let kept := selectByDistance peaks (peaks.map (fun p => x.getD p 0)) distance
  kept.filter (fun p => decide (promMin ≤ prominenceOf x p))

/-- `_detect_steps` with the default arguments (`prominence=None`, so the
adaptive threshold `max(1e-6, 3·MAD)` is used, and `distance=5`). -/
def detectSteps (vals : List ℚ) : List (Nat × Nat) :=
  if vals.length < 10 then []
  else
    let ds := rollingMedian3 (npDiff vals)
    let madv := madOf ds
    let prom := max (1 / 1000000) (3 * madv)
    let peaks := findPeaks (ds.map (fun v => |v|)) prom 5
    peaks.map (fun p => (p - 8, min (vals.length - 1) (p + 8)))

/-! ### Theorems for C7 -/

/-- `getD` with default 0 of an all-zero list is 0. -/
theorem getD_zero_of_all {l : List ℚ} (h : ∀ v ∈ l, v = 0) (i : Nat) :
    l.getD i 0 = 0 := by
  induction l generalizing i with
  | nil => rfl
  | cons a rest ih =>
    cases i with
    | zero => exact h a (List.mem_cons_self a rest)
    | succ k => exact ih (fun v hv => h v (List.mem_cons_of_mem a hv)) k

/-- The median of an all-zero list is 0. -/
theorem median_zero {l : List ℚ} (h : ∀ v ∈ l, v = 0) : median l = 0 := by
  have hs : ∀ v ∈ l.insertionSort (· ≤ ·), v = 0 := by
    intro v hv
    exact h v ((List.mem_insertionSort _).mp hv)
  rw [median]
  split
  · rfl
  · split
    · exact getD_zero_of_all hs _
    · rw [getD_zero_of_all hs _, getD_zero_of_all hs _]
      norm_num

/-- `npDiff` of a constant list is all-zero. -/
theorem npDiff_zero (xs : List ℚ) (c : ℚ) (h : ∀ v ∈ xs, v = c) :
    ∀ u ∈ npDiff xs, u = 0 := by
  induction xs with
  | nil => simp [npDiff]
  | cons a rest ih =>
    cases rest with
    | nil => simp [npDiff]
    | cons b rest2 =>
      intro u hu
      rw [npDiff] at hu
      rcases List.mem_cons.mp hu with h1 | h2
      · have ha := h a (List.mem_cons_self _ _)
        have hb := h b (List.mem_cons_of_mem a (List.mem_cons_self _ _))
        rw [h1, ha, hb]
        ring
      · exact ih (fun v hv => h v (List.mem_cons_of_mem a hv)) u h2

/-- The rolling median of an all-zero list is all-zero. -/
theorem rollingMedian3_zero {xs : List ℚ} (h : ∀ v ∈ xs, v = 0) :
    ∀ v ∈ rollingMedian3 xs, v = 0 := by
  intro v hv
  rcases List.mem_map.mp hv with ⟨i, _, rfl⟩
  apply median_zero
  intro u hu
  have : u ∈ xs := List.drop_subset _ _ (List.take_subset _ _ hu)
  exact h u this

/-- The MAD of an all-zero list is 0. -/
theorem madOf_zero {xs : List ℚ} (h : ∀ v ∈ xs, v = 0) : madOf xs = 0 := by
  rw [madOf]
  apply median_zero
  intro v hv
  rcases List.mem_map.mp hv with ⟨u, hu, rfl⟩
  rw [h u hu, median_zero h]
  simp

/-- The local-maxima scan finds nothing in a constant list: the strict-rise
test `x[i−1] < x[i]` never fires. -/
theorem lmAux_const {x : List ℚ} {c : ℚ} (h : ∀ v ∈ x, v = c) :
    ∀ fuel i, lmAux x fuel i = [] := by
  intro fuel
  induction fuel with
  | zero => intro i; rfl
  | succ f ih =>
    intro i
    rw [lmAux]
    by_cases hi : i + 1 < x.length
    · rw [if_pos hi]
      have h1 : x.getD (i - 1) 0 = c := by
        have hr : i - 1 < x.length := by omega
        rw [List.getD_eq_getElem _ _ hr]
        exact h _ (List.getElem_mem hr)
      have h2 : x.getD i 0 = c := by
        have hr : i < x.length := by omega
        rw [List.getD_eq_getElem _ _ hr]
        exact h _ (List.getElem_mem hr)
      rw [h1, h2, if_neg (lt_irrefl c)]
      exact ih (i + 1)
    · rw [if_neg hi]

/-- **C7**: a perfectly flat series (all values equal, hence all first
differences zero) yields no step windows: the smoothed difference sequence is
identically zero, the adaptive threshold is the positive floor
`max(1e-6, 3·MAD) = 1e-6`, and the all-zero absolute difference sequence has
no local maxima, so `find_peaks` returns nothing and `_detect_steps` returns
the empty list. -/
theorem C7_flat_no_steps (vals : List ℚ) (c : ℚ) (hc : ∀ v ∈ vals, v = c) :
    detectSteps vals = [] := by
  rw [detectSteps]
  by_cases hlen : vals.length < 10
  · rw [if_pos hlen]
  · rw [if_neg hlen]
    have hd : ∀ v ∈ npDiff vals, v = 0 := npDiff_zero vals c hc
    have hds : ∀ v ∈ rollingMedian3 (npDiff vals), v = 0 := rollingMedian3_zero hd
    have habs : ∀ v ∈ (rollingMedian3 (npDiff vals)).map (fun v => |v|), v = 0 := by
      intro v hv
      rcases List.mem_map.mp hv with ⟨u, hu, rfl⟩
      rw [hds u hu]
      simp
    have hlm : localMaxima ((rollingMedian3 (npDiff vals)).map (fun v => |v|)) = [] :=
      lmAux_const habs _ 1
    show (findPeaks ((rollingMedian3 (npDiff vals)).map (fun v => |v|)) _ 5).map _ = []
    rw [findPeaks, hlm]
    rfl

/-- **C7** (witness): a constant series of length 12. -/
theorem C7_flat_no_steps_witness : detectSteps (List.replicate 12 (3 : ℚ)) = [] :=
  C7_flat_no_steps (List.replicate 12 (3 : ℚ)) 3 (fun v hv => List.eq_of_mem_replicate hv)

end TSV

namespace TSV

/-! ## Time filter and resampling (`_apply_time_filter_and_sampling`)

```
df = df.loc[(df.index >= start_time) & (df.index <= end_time)]
if df.empty: return df
if freq != "原始数据":
    df = df.resample(freq).agg(agg, numeric_only=True)
    df = df.dropna(how='all')
return df
```

Timestamps are integers (seconds since the epoch).  Every offered frequency
(`1S` … `1H`) is a divisor of one day, so the pandas `start_day` bucket
origin coincides with the epoch origin and the bucket label of `t` is the
left edge `p·⌊t/p⌋`.  The aggregator (`mean`/`first`/`max`/`min`/`median`)
skips missing values and is modelled as an arbitrary function of the present
values of a bucket. -/

/-- One dataset row: timestamp and per-column optional (NaN-able) values. -/
abbrev DFRow := Int × List (Option ℚ)

/-- `df.loc[(df.index >= start) & (df.index <= end)]`: inclusive window. -/
def filterTime (s e : Int) (df : List DFRow) : List DFRow :=
  df.filter (fun r => decide (s ≤ r.1 ∧ r.1 ≤ e))

/-- Bucket label of timestamp `t` for period `p`: the left edge `p·⌊t/p⌋`. -/
def bucketOf (p t : Int) : Int := p * t.fdiv p

/-- The timestamps of a table. -/
def timesOf (df : List DFRow) : List Int := df.map Prod.fst

/-- `df.index.min()` (0 on an empty table, where pandas gives NaT). -/
def minTime (df : List DFRow) : Int :=
  match df with
  | [] => 0
  | r :: rest => (timesOf rest).foldl min r.1

/-- `df.index.max()` (0 on an empty table, where pandas gives NaT). -/
def maxTime (df : List DFRow) : Int :=
  match df with
  | [] => 0
  | r :: rest => (timesOf rest).foldl max r.1

/-- The present (non-NaN) values of column `j` among the rows of bucket `b`,
in time order. -/
def bucketVals (p : Int) (df : List DFRow) (b : Int) (j : Nat) : List ℚ :=
  df.filterMap (fun r => if bucketOf p r.1 = b then r.2.getD j none else none)

/-- Aggregate one column of one bucket; a bucket holding no value for the
column aggregates to NaN (`none`). -/
def aggCol (agg : List ℚ → ℚ) (vs : List ℚ) : Option ℚ :=
  if vs.isEmpty then none else some (agg vs)

/-- The fixed-period grid of bucket labels from `lo` to `hi` (pandas
materialises every bucket of the span, empty ones included). -/
def bucketRange (p lo hi : Int) : List Int :=
  (List.range (((hi - lo).fdiv p).toNat + 1)).map (fun k => lo + p * k)

/-- `df.resample(freq).agg(agg, numeric_only=True)` on a table with `ncols`
columns. -/
def resample (p : Int) (agg : List ℚ → ℚ) (ncols : Nat) (df : List DFRow) :
    List DFRow :=
  if df.isEmpty then []
  else
    (bucketRange p (bucketOf p (minTime df)) (bucketOf p (maxTime df))).map
      (fun b => (b, (List.range ncols).map (fun j => aggCol agg (bucketVals p df b j))))

/-- `df.dropna(how='all')`: keep the rows with at least one present value. -/
def dropnaAll (df : List DFRow) : List DFRow :=
  df.filter (fun r => r.2.any (fun o => o.isSome))

/-- `_apply_time_filter_and_sampling` with a valid period and aggregator:
inclusive time filter, resample, drop all-missing rows. -/
def applyTimeFilterAndSampling (s e p : Int) (agg : List ℚ → ℚ) (ncols : Nat)
    (df : List DFRow) : List DFRow :=
  dropnaAll (resample p agg ncols (filterTime s e df))

/-! ### Theorems for C1 -/

/-- Folding `min` only lowers the accumulator. -/
theorem foldl_min_le_init (l : List Int) (a : Int) : l.foldl min a ≤ a := by
  induction l generalizing a with
  | nil => exact le_refl a
  | cons b rest ih => exact le_trans (ih (min a b)) (min_le_left a b)

/-- Folding `min` bounds every list element. -/
theorem foldl_min_le_mem (l : List Int) (a : Int) : ∀ x ∈ l, l.foldl min a ≤ x := by
  induction l generalizing a with
  | nil => intro x hx; cases hx
  | cons b rest ih =>
    intro x hx
    rcases List.mem_cons.mp hx with rfl | hx
    · exact le_trans (foldl_min_le_init rest (min a x)) (min_le_right a x)
    · exact ih (min a b) x hx

/-- Folding `max` only raises the accumulator. -/
theorem le_foldl_max_init (l : List Int) (a : Int) : a ≤ l.foldl max a := by
  induction l generalizing a with
  | nil => exact le_refl a
  | cons b rest ih => exact le_trans (le_max_left a b) (ih (max a b))

/-- Folding `max` bounds every list element. -/
theorem le_foldl_max_mem (l : List Int) (a : Int) : ∀ x ∈ l, x ≤ l.foldl max a := by
  induction l generalizing a with
  | nil => intro x hx; cases hx
  | cons b rest ih =>
    intro x hx
    rcases List.mem_cons.mp hx with rfl | hx
    · exact le_trans (le_max_right a x) (le_foldl_max_init rest (max a x))
    · exact ih (max a b) x hx

/-- Every row's timestamp is bounded by the table's min and max times. -/
theorem minTime_le_maxTime {df : List DFRow} {r : DFRow} (hr : r ∈ df) :
    minTime df ≤ r.1 ∧ r.1 ≤ maxTime df := by
  cases df with
  | nil => cases hr
  | cons r0 rest =>
    rcases List.mem_cons.mp hr with rfl | hr
    · exact ⟨foldl_min_le_init _ _, le_foldl_max_init _ _⟩
    · have hmem : r.1 ∈ timesOf rest := List.mem_map.mpr ⟨r, hr, rfl⟩
      exact ⟨foldl_min_le_mem _ _ _ hmem, le_foldl_max_mem _ _ _ hmem⟩

/-- The bucket label lies within one period below its timestamp. -/
theorem bucketOf_bounds (p t : Int) (hp : 0 < p) :
    bucketOf p t ≤ t ∧ t - p < bucketOf p t := by
  have hfd : t.fdiv p = t / p := Int.fdiv_eq_ediv t (le_of_lt hp)
  rw [bucketOf, hfd]
  have h1 := Int.ediv_add_emod t p
  have h2 := Int.emod_nonneg t (ne_of_gt hp)
  have h3 := Int.emod_lt_of_pos t hp
  constructor <;> linarith

/-- **C1** (counterexample): one input row at `t = 7`, period 10: the single
resampled output row is labelled 0, which lies *outside* the closed interval
`[7, 7]` of the time-filtered input timestamps. -/
theorem C1_counterexample :
    applyTimeFilterAndSampling 0 100 10 (fun vs => vs.headD 0) 1 [(7, [some 1])] =
      [(0, [some 1])] ∧
    minTime (filterTime 0 100 [(7, [some 1])]) = 7 ∧
    ¬((7 : Int) ≤ 0) := by
  refine ⟨rfl, rfl, by decide⟩

/-- **C1** (amended): for a positive period `p` and any aggregator, every
output row of the filter-resample-dropna pipeline (i) carries at least one
present value (all-missing rows are dropped), and (ii) has a timestamp `b`
with `min − p < b ≤ max`, where `min`/`max` are over the time-filtered
input: the label is the period-aligned floor of some input timestamp, so it
may precede `min` by less than one period but never exceeds `max`. -/
theorem C1_resample_bounds (s e p : Int) (hp : 0 < p) (agg : List ℚ → ℚ) (ncols : Nat)
    (df : List DFRow) (b : Int) (vals : List (Option ℚ))
    (hmem : (b, vals) ∈ applyTimeFilterAndSampling s e p agg ncols df) :
    minTime (filterTime s e df) - p < b ∧ b ≤ maxTime (filterTime s e df) ∧
    ∃ o ∈ vals, o.isSome = true := by
  have hfilter := List.mem_filter.mp hmem
  have hres := hfilter.1
  have hsome : ∃ o ∈ vals, o.isSome = true := List.any_eq_true.mp hfilter.2
  have hrow : ∃ r ∈ filterTime s e df, bucketOf p r.1 = b := by
    rcases hsome with ⟨o, ho, hos⟩
    unfold resample at hres
    by_cases hF : (filterTime s e df).isEmpty
    · rw [if_pos hF] at hres
      cases hres
    · rw [if_neg hF] at hres
      rcases List.mem_map.mp hres with ⟨b2, _, heq⟩
      have hb : b2 = b := congrArg Prod.fst heq
      have hvals : (List.range ncols).map
          (fun j => aggCol agg (bucketVals p (filterTime s e df) b j)) = vals := by
        rw [← hb]
        exact congrArg Prod.snd heq
      rw [← hvals] at ho
      rcases List.mem_map.mp ho with ⟨j, _, hoeq⟩
      rw [← hoeq] at hos
      unfold aggCol at hos
      by_cases hbv : (bucketVals p (filterTime s e df) b j).isEmpty
      · rw [if_pos hbv] at hos
        cases hos
      · have hnil : bucketVals p (filterTime s e df) b j ≠ [] := by
          intro hcon
          apply hbv
          rw [hcon]
          rfl
        rcases List.exists_mem_of_ne_nil _ hnil with ⟨z, hz⟩
        rcases List.mem_filterMap.mp hz with ⟨r, hrmem, hrz⟩
        by_cases hbk : bucketOf p r.1 = b
        · exact ⟨r, hrmem, hbk⟩
        · rw [if_neg hbk] at hrz
          cases hrz
  rcases hrow with ⟨r, hrmem, hbk⟩
  have hb1 := (bucketOf_bounds p r.1 hp).1
  have hb2 := (bucketOf_bounds p r.1 hp).2
  rw [hbk] at hb1 hb2
  have hmm := minTime_le_maxTime hrmem
  exact ⟨by linarith [hmm.1], by linarith [hmm.2], hsome⟩

/-- **C1** (witness for the amended theorem, at the counterexample input). -/
theorem C1_resample_bounds_witness :
    minTime (filterTime 0 100 [((7 : Int), [some (1 : ℚ)])]) - 10 < 0 ∧
    (0 : Int) ≤ maxTime (filterTime 0 100 [((7 : Int), [some (1 : ℚ)])]) ∧
    ∃ o ∈ [some (1 : ℚ)], o.isSome = true := by
  have h := C1_resample_bounds 0 100 10 (by norm_num) (fun vs => vs.headD 0) 1
    [((7 : Int), [some (1 : ℚ)])] 0 [some (1 : ℚ)]
    (by rw [show applyTimeFilterAndSampling 0 100 10 (fun vs => vs.headD 0) 1
          [((7 : Int), [some (1 : ℚ)])] = [(0, [some 1])] from rfl]
        exact List.mem_singleton.mpr rfl)
  exact h

end TSV
